import Mathlib

/-!
Shallow embedding of the ruild build tool (src/main.rs).

Strings are modelled as `List Char`.  The small fixed regular expressions of
the source are translated into direct character scans; each definition carries
a comment naming the regex it embeds and, where the regex engine could in
principle backtrack, why no backtracking can change the result.  Filesystem
and process effects (reading a file, the defaults file, spawning the shell)
are passed in as explicit parameters.
-/

namespace Ruild

/-- Character list of a string literal. -/
def strL (s : String) : List Char := s.data

/-- Whitespace class: the characters matched by the regex class `\s` and
trimmed by `str::trim` for the ASCII inputs the tool processes. -/
def isWs (c : Char) : Bool :=
  c == ' ' || c == '\t' || c == '\n' || c == '\x0b' || c == '\x0c' || c == '\r'

/-- ASCII alphanumeric, the regex class `[A-Za-z0-9]` and Rust
`char::is_ascii_alphanumeric`: digits 48-57, uppercase 65-90, lowercase
97-122. -/
def isAlnumA (c : Char) : Bool :=
  (48 ≤ c.toNat && c.toNat ≤ 57) || (65 ≤ c.toNat && c.toNat ≤ 90) ||
    (97 ≤ c.toNat && c.toNat ≤ 122)

/-- Rust `char::to_ascii_lowercase`: shift 65-90 (A-Z) up by 32, leave
everything else alone. -/
def to_ascii_lowercase (c : Char) : Char :=
  if 65 ≤ c.toNat && c.toNat ≤ 90 then Char.ofNat (c.toNat + 32) else c

/-- Rust `str::to_ascii_lowercase` on a character list. -/
def lowerStr (s : List Char) : List Char := s.map to_ascii_lowercase

/-- `str::trim_start`. -/
def trimL (s : List Char) : List Char := s.dropWhile isWs

/-- `str::trim_end`. -/
def trimR (s : List Char) : List Char := (s.reverse.dropWhile isWs).reverse

/-- `str::trim`. -/
def trimBoth (s : List Char) : List Char := trimR (trimL s)

/-- Index (in characters) of the first occurrence of `pat` in `s`, the
character-level counterpart of Rust `str::find` for our ASCII data. -/
def findSub (pat : List Char) : List Char → Option Nat
  | [] => if pat.isEmpty then some 0 else none
  | c :: cs =>
    if List.isPrefixOf pat (c :: cs) then some 0
    else (findSub pat cs).map (· + 1)

/-- Rust `str::contains`. -/
def containsSub (pat s : List Char) : Bool := (findSub pat s).isSome

/-- Comment extractor `is_comment` (main.rs lines 20-43).  The four regexes,
tried in order on the trimmed line:
`^#\s*(.*)$`, `^//\s*(.*)$`, `^<!--\s*(.*?)\s*(?:-->)?\s*$`,
`^\(\*\s*(.*?)\s*\*\)$`.
Since the line is trimmed first, the trailing `\s*` groups interact with the
lazy captures as follows: in the HTML case the capture is the text after
`<!--` with the leading whitespace dropped and, when it ends with the marker
`-->`, with that final marker and the whitespace before it dropped; in the
`(* *)` case the delimiters are mandatory and the interior is trimmed. -/
def is_comment (line : List Char) : Option (List Char) :=
  let s := trimBoth line
  if List.isPrefixOf (strL "#") s then
    some (trimL (s.drop 1))
  else if List.isPrefixOf (strL "//") s then
    some (trimL (s.drop 2))
  else if List.isPrefixOf (strL "<!--") s then
    let u := trimL (s.drop 4)
    some (if List.isSuffixOf (strL "-->") u then trimR (u.take (u.length - 3)) else u)
  else if List.isPrefixOf (strL "(*") s && List.isSuffixOf (strL "*)") (s.drop 2) then
    some (trimBoth ((s.drop 2).take ((s.drop 2).length - 2)))
  else none

/-- Attempt of the regex `@build-?([A-Za-z0-9]*)\s+(.*)$` at the position just
after a literal `@build`: an optional `-`, a greedy alphanumeric tag (possibly
empty), at least one whitespace character, then the rest as the command.
No backtracking can rescue a failure here: shortening the greedy tag leaves an
alphanumeric character where `\s+` needs whitespace, and un-consuming the `-`
leaves `-` there, so the maximal-munch scan below is exact. -/
def tryBuild (rest : List Char) : Option (List Char × List Char) :=
  let r1 := if List.isPrefixOf (strL "-") rest then rest.drop 1 else rest
  let tag := r1.takeWhile isAlnumA
  match r1.dropWhile isAlnumA with
  | [] => none
  | c :: r3 => if isWs c then some (tag, r3.dropWhile isWs) else none

/-- Search loop of `Regex::captures` for the `@build` pattern: try every
occurrence of the literal `@build` from the left; on failure of the rest of
the pattern, resume the search one character further. -/
def detect_content : List Char → Option (List Char × List Char)
  | [] => none
  | c :: cs =>
    if List.isPrefixOf (strL "@build") (c :: cs) then
      match tryBuild ((c :: cs).drop 6) with
      | some r => some r
      | none => detect_content cs
    else detect_content cs

/-- Directive detector `detect` (main.rs lines 46-53): extract the comment
text, then capture `(type, command)` from the `@build` pattern. -/
def detect (line : List Char) : Option (List Char × List Char) :=
  (is_comment line).bind detect_content

/-- Type-tag normalization `normalize_type` (main.rs lines 270-275): keep the
ASCII alphanumeric characters, lowercased. -/
def normalize_type (t : List Char) : List Char :=
  (t.filter isAlnumA).map to_ascii_lowercase

/-- An ASCII lowercase letter or an ASCII digit: the character class the
specification names as the image of the normalization. -/
def isLowerDigit (c : Char) : Bool :=
  (97 ≤ c.toNat && c.toNat ≤ 122) || (48 ≤ c.toNat && c.toNat ≤ 57)

/-- Emission step of the `%`-token pass: a pending `%` with the (reversed)
alphanumeric run `acc` behind it becomes `"base<token>"` when the run is
non-empty, and stays a literal `%` when it is empty (the regex
`%([A-Za-z0-9]+)` needs at least one token character). -/
def emitTok (base acc : List Char) : List Char :=
  if acc.isEmpty then strL "%" else '"' :: (base ++ acc.reverse ++ strL "\"")

/-- First pass of `expand_template` (main.rs lines 58-69):
`replace_all` of `%([A-Za-z0-9]+)` by `"{base}{token}"`.  The left-to-right
non-overlapping scan of `replace_all` with a greedy token is realized as a
character scan whose first argument holds the token collected so far after a
`%` (`none` when not inside a token). -/
def expandTokensGo (base : List Char) :
    Option (List Char) → List Char → List Char
  | none, [] => []
  | some acc, [] => emitTok base acc
  | none, c :: rest =>
    if c == '%' then expandTokensGo base (some []) rest
    else c :: expandTokensGo base none rest
  | some acc, c :: rest =>
    if isAlnumA c then expandTokensGo base (some (c :: acc)) rest
    else
      emitTok base acc ++
        (if c == '%' then expandTokensGo base (some []) rest
         else c :: expandTokensGo base none rest)

/-- Second pass of `expand_template`: `replace_all` of the single-character
pattern `%` by the base, unquoted. -/
def expandPercentAll (base : List Char) : List Char → List Char
  | [] => []
  | c :: rest => (if c == '%' then base else [c]) ++ expandPercentAll base rest

/-- Template expander `expand_template` (main.rs lines 58-69): token pass
first, then the lone-`%` pass over its output. -/
def expand_template (template base : List Char) : List Char :=
  expandPercentAll base (expandTokensGo base none template)

/-- Rust `str::replace`: replace every non-overlapping occurrence of `pat`,
scanning left to right (all patterns used by the tool are non-empty). -/
def replaceAll (pat rep : List Char) : List Char → List Char
  | [] => []
  | c :: cs =>
    if _h : !pat.isEmpty && List.isPrefixOf pat (c :: cs) then
      rep ++ replaceAll pat rep ((c :: cs).drop pat.length)
    else
      c :: replaceAll pat rep cs
termination_by s => s.length
decreasing_by
  · cases pat with
    | nil => simp [List.isEmpty] at _h
    | cons p ps =>
      simp only [List.length_drop, List.length_cons]
      omega
  · simp

/-- Rust `Path::file_stem` and `Path::extension` on the final path component:
split at the last dot, except that a name whose only dot is the leading
character has no extension. -/
def split_name (name : List Char) : List Char × List Char :=
  let extRev := name.reverse.takeWhile (fun c => !(c == '.'))
  if extRev.length == name.length then (name, [])
  else
    let stem := name.take (name.length - extRev.length - 1)
    if stem.isEmpty then (name, []) else (stem, extRev.reverse)

/-- `base_and_ext` (main.rs lines 251-268): the base keeps a trailing dot
exactly when a (possibly empty) extension was present; an empty extension
yields the bare stem. -/
def base_and_ext (name : List Char) : List Char × List Char :=
  let p := split_name name
  (if p.2.isEmpty then p.1 else p.1 ++ strL ".", p.2)

/-- Package managers recognized from lock files (main.rs line 296). -/
inductive PackageManager where
  | npm
  | yarn
  | pnpm
  | bun
deriving DecidableEq, Repr

/-- Variable expansion `expand_vars` (main.rs lines 160-186) applied after the
`%` passes: the fixed `\x7b\x7b...\x7d\x7d` placeholders replaced in table
order.  `name` is the final component of the file path, `workdir` the display
string of the working directory, and `pm` abstracts
`pick_package_manager(workdir)`, which inspects lock files on disk. -/
def expand_vars (s : List Char) (name workdir : List Char) (pm : PackageManager)
    (ty : Option (List Char)) : List Char :=
  let file_stem := (split_name name).1
  let quoted := fun (v : List Char) => '"' :: (v ++ strL "\"")
  let pm_str := match pm with
    | .npm => strL "npm"
    | .yarn => strL "yarn"
    | .pnpm => strL "pnpm"
    | .bun => strL "bun"
  let pm_start := match pm with
    | .npm => strL "npm start"
    | .yarn => strL "yarn start"
    | .pnpm => strL "pnpm start"
    | .bun => strL "bun run start"
  let pm_test := match pm with
    | .npm => strL "npm test"
    | .yarn => strL "yarn test"
    | .pnpm => strL "pnpm test"
    | .bun => strL "bun run test"
  let pm_install := match pm with
    | .npm => strL "npm install"
    | .yarn => strL "yarn install"
    | .pnpm => strL "pnpm install"
    | .bun => strL "bun install"
  let ty_norm := (ty.map normalize_type).getD []
  let s := replaceAll (strL "\x7b\x7bfile\x7d\x7d") (quoted name) s
  let s := replaceAll (strL "\x7b\x7bfile_stem\x7d\x7d") (quoted file_stem) s
  let s := replaceAll (strL "\x7b\x7bdir\x7d\x7d") (quoted workdir) s
  let s := replaceAll (strL "\x7b\x7bpm\x7d\x7d") pm_str s
  let s := replaceAll (strL "\x7b\x7bpm_start\x7d\x7d") pm_start s
  let s := replaceAll (strL "\x7b\x7bpm_test\x7d\x7d") pm_test s
  let s := replaceAll (strL "\x7b\x7bpm_install\x7d\x7d") pm_install s
  replaceAll (strL "\x7b\x7btype\x7d\x7d") ty_norm s

/-- One line against the extension-rule regex `^([A-Za-z0-9]+)\s*:\s*(.*)$`
(used both by `read_defaults` and `parse_defaults_str`).  The greedy key needs
no backtracking: a shortened key leaves an alphanumeric boundary character,
which can start neither `\s*` nor `:`. -/
def parse_ext_line (line : List Char) : Option (List Char × List Char) :=
  let key := line.takeWhile isAlnumA
  if key.isEmpty then none
  else
    match (line.dropWhile isAlnumA).dropWhile isWs with
    | c :: r => if c == ':' then some (key, r.dropWhile isWs) else none
    | [] => none

/-- `read_defaults` (main.rs lines 74-112) after the defaults file has been
read: scan the raw lines in order and return the command of the first line
whose key equals the extension case-insensitively.  `dlines` are the lines of
the defaults file; bootstrapping and open failures are handled by the caller
passing no lines at all. -/
def read_defaults : List (List Char) → List Char → Option (List Char)
  | [], _ => none
  | l :: ls, ext =>
    match parse_ext_line l with
    | some kv => if lowerStr kv.1 == lowerStr ext then some kv.2 else read_defaults ls ext
    | none => read_defaults ls ext

/-- A user file-pattern rule (main.rs line 195). -/
structure FileRule where
  pattern : List Char
  ty : Option (List Char)
  cmd : List Char
deriving DecidableEq, Repr

/-- Characters allowed in a file-rule pattern: the regex class `[^\s:]`. -/
def isPatChar (c : Char) : Bool := !(isWs c) && !(c == ':')

/-- Characters allowed in a file-rule tag: the regex class `[A-Za-z0-9_-]`. -/
def isTagChar (c : Char) : Bool := isAlnumA c || c == '-' || c == '_'

/-- The mandatory tail `\s*:\s*(.*)$` of the file-rule regex. -/
def ruleTail (after : List Char) : Option (List Char) :=
  match after.dropWhile isWs with
  | c :: r => if c == ':' then some (r.dropWhile isWs) else none
  | [] => none

/-- The optional group `(?:\s+-([A-Za-z0-9_-]+))?` of the file-rule regex
followed by the tail.  Greedy runs need no backtracking: shrinking the `\s+`
run leaves whitespace where `-` is required, and shrinking the tag run leaves
a tag character, which can start neither `\s*` nor `:`. -/
def ruleTagBranch (after : List Char) : Option (List Char × List Char) :=
  match after with
  | c :: r =>
    if isWs c then
      match r.dropWhile isWs with
      | d :: r2 =>
        if d == '-' then
          let tag := r2.takeWhile isTagChar
          if tag.isEmpty then none
          else (ruleTail (r2.dropWhile isTagChar)).map (fun cmd => (tag, cmd))
        else none
      | [] => none
    else none
  | [] => none

/-- One (already trimmed) line against the file-rule regex
`^file:([^\s:]+)(?:\s+-([A-Za-z0-9_-]+))?\s*:\s*(.*)$` (main.rs line 200).
When the optional tag group cannot complete, the engine retries with the
group skipped, which is the `ruleTail` fallback below; the greedy pattern
capture needs no backtracking because a pattern character can start none of
`\s+`, `\s*`, `:`.  The tag is normalized at parse time (main.rs line 206). -/
def parse_file_rule (t : List Char) : Option FileRule :=
  if List.isPrefixOf (strL "file:") t then
    let rest := t.drop 5
    let pat := rest.takeWhile isPatChar
    if pat.isEmpty then none
    else
      let after := rest.dropWhile isPatChar
      match ruleTagBranch after with
      | some tagcmd => some ⟨pat, some (normalize_type tagcmd.1), tagcmd.2⟩
      | none =>
        match ruleTail after with
        | some cmd => some ⟨pat, none, cmd⟩
        | none => none
  else none

/-- Parsed defaults configuration (main.rs lines 188-192).  The Rust
`HashMap` is modelled as an association list with unique keys kept by
replace-on-insert. -/
structure DefaultsCfg where
  ext_map : List (List Char × List Char)
  file_rules : List FileRule
deriving DecidableEq, Repr

/-- `HashMap::insert`: replace the binding of an existing key, else add. -/
def insertReplace : List (List Char × List Char) → List Char → List Char →
    List (List Char × List Char)
  | [], k, v => [(k, v)]
  | kv :: rest, k, v =>
    if kv.1 == k then (k, v) :: rest else kv :: insertReplace rest k v

/-- One step of `parse_defaults_str` (main.rs lines 197-218): trim, skip blank
and `#` lines, try the file-rule shape, then the extension shape. -/
def parse_defaults_line (cfg : DefaultsCfg) (line : List Char) : DefaultsCfg :=
  let t := trimBoth line
  if t.isEmpty || List.isPrefixOf (strL "#") t then cfg
  else
    match parse_file_rule t with
    | some r => ⟨cfg.ext_map, cfg.file_rules ++ [r]⟩
    | none =>
      match parse_ext_line t with
      | some kv => ⟨insertReplace cfg.ext_map (lowerStr kv.1) kv.2, cfg.file_rules⟩
      | none => cfg

/-- `parse_defaults_str` (main.rs lines 197-218) over the file's lines. -/
def parse_defaults_str (dlines : List (List Char)) : DefaultsCfg :=
  dlines.foldl parse_defaults_line ⟨[], []⟩

/-- The rule loop of `match_file_rule` (main.rs lines 235-246) over an
already-lowercased name and an already-normalized requested tag. -/
def match_rules (lname : List Char) (tnorm : Option (List Char)) :
    List FileRule → Option (List Char)
  | [] => none
  | r :: rs =>
    let pat := lowerStr r.pattern
    let star := List.isSuffixOf (strL "*") pat
    let pat2 := if star then pat.take (pat.length - 1) else pat
    let ok := if star then List.isPrefixOf pat2 lname else lname == pat2
    if ok then
      match r.ty, tnorm with
      | none, _ => some r.cmd
      | some rt, some t => if rt == t then some r.cmd else match_rules lname tnorm rs
      | some _, none => match_rules lname tnorm rs
    else match_rules lname tnorm rs

/-- `match_file_rule` (main.rs lines 232-248): first declared rule whose
pattern matches the lowercased file name and whose tag constraint accepts the
normalized requested tag. -/
def match_file_rule (cfg : DefaultsCfg) (name : List Char) (ty : Option (List Char)) :
    Option (List Char) :=
  match_rules (lowerStr name) (ty.map normalize_type) cfg.file_rules

/-- `compose_cmd` (main.rs lines 278-293): sub-command chosen from the
normalized type tag, defaulting to bringing services up. -/
def compose_cmd (ty : Option (List Char)) : List Char :=
  let t := ty.map normalize_type
  let eq3 := fun (a b c : String) =>
    t == some (strL a) || t == some (strL b) || t == some (strL c)
  if eq3 "composedown" "down" "dcdown" then strL "docker compose down"
  else if eq3 "composebuild" "build" "dcbuild" then strL "docker compose build"
  else if eq3 "composepull" "pull" "dcpull" then strL "docker compose pull"
  else if eq3 "composelogs" "logs" "dclogs" then strL "docker compose logs -f"
  else if eq3 "composeps" "ps" "dcps" then strL "docker compose ps"
  else if eq3 "composestop" "stop" "dcstop" then strL "docker compose stop"
  else if eq3 "composestart" "start" "dcstart" then strL "docker compose start"
  else if eq3 "composerestart" "restart" "dcrestart" then strL "docker compose restart"
  else if t == some (strL "composerecreate") || t == some (strL "recreate") then
    strL "docker compose up -d --force-recreate"
  else if t == some (strL "composeprune") || t == some (strL "prune") then
    strL "docker compose down --volumes --remove-orphans"
  else strL "docker compose up -d"

/-- `pm_script` (main.rs lines 309-331): package-manager flavored invocation
of a (lowercased) script name. -/
def pm_script (pm : PackageManager) (script : List Char) : List Char :=
  let s := lowerStr script
  match pm with
  | .npm =>
    if s == strL "install" then strL "npm install"
    else if s == strL "start" then strL "npm start"
    else if s == strL "test" then strL "npm test"
    else strL "npm run " ++ s
  | .yarn => if s == strL "install" then strL "yarn install" else strL "yarn " ++ s
  | .pnpm => if s == strL "install" then strL "pnpm install" else strL "pnpm " ++ s
  | .bun => if s == strL "install" then strL "bun install" else strL "bun run " ++ s

/-- `project_command_for_file` (main.rs lines 334-371): the fixed table of
well-known build-tool entry points, compared against the lowercased file
name.  `pm` abstracts `pick_package_manager` on the directory of the file.
In the source this function is compiled only under `#[cfg(test)]`. -/
def project_command_for_file (type_expected : Option (List Char)) (name : List Char)
    (pm : PackageManager) : Option (List Char) :=
  let lname := lowerStr name
  if lname == strL "book.toml" then some (strL "mdbook build")
  else if lname == strL "mkdocs.yml" || lname == strL "mkdocs.yaml" then
    some (strL "mkdocs build")
  else if lname == strL "conf.py" then
    some (strL "sphinx-build -b html . _build/html")
  else if List.isPrefixOf (strL "doxyfile") lname then
    some (strL "doxygen " ++ name)
  else if lname == strL "docker-compose.yml" || lname == strL "docker-compose.yaml" ||
      lname == strL "compose.yml" || lname == strL "compose.yaml" then
    some (compose_cmd type_expected)
  else if lname == strL "package.json" then
    let tnorm := type_expected.map normalize_type
    let eq2 := fun (a b : String) => tnorm == some (strL a) || tnorm == some (strL b)
    let script :=
      if eq2 "start" "npmstart" then strL "start"
      else if eq2 "test" "npmtest" then strL "test"
      else if eq2 "build" "npmbuild" then strL "build"
      else if eq2 "lint" "npmlint" then strL "lint"
      else if eq2 "format" "npmformat" || tnorm == some (strL "fmt") then strL "format"
      else if eq2 "dev" "npmdev" then strL "dev"
      else if eq2 "clean" "npmclean" then strL "clean"
      else if eq2 "install" "npminstall" then strL "install"
      else strL "build"
    some (pm_script pm script)
  else none

/-- `append_command_segment` (main.rs lines 373-382): trim the fragment, skip
it when empty, and glue it with a single separating space. -/
def append_command_segment (cmd fragment : List Char) : List Char :=
  let part := trimBoth fragment
  if part.isEmpty then cmd
  else if !cmd.isEmpty && !(List.isSuffixOf (strL " ") cmd) then cmd ++ ' ' :: part
  else cmd ++ part

/-- `collect_html_command` (main.rs lines 384-405): consume lines until one
contains `-->`, appending trimmed fragments; on the closing line only the text
before the marker is appended and the remainder of that line is discarded.
Returns the assembled command and the lines left unconsumed. -/
def collect_html_command : List Char → List (List Char) → List Char × List (List Char)
  | cmd, [] => (cmd, [])
  | cmd, l :: ls =>
    let t := trimBoth l
    match findSub (strL "-->") t with
    | some i => (append_command_segment cmd (t.take i), ls)
    | none => collect_html_command (append_command_segment cmd t) ls

/-- The multiline-HTML test of `build_file` (main.rs lines 433-436). -/
def is_multiline_html (line : List Char) : Bool :=
  let t := trimL line
  List.isPrefixOf (strL "<!--") t && !containsSub (strL "-->") t

/-- The type check of `build_file` (main.rs lines 440-443): with no requested
tag everything matches; with a requested tag the directive tag must be
non-empty and equal to it, compared verbatim. -/
def directive_ok (type_expected : Option (List Char)) (ty : List Char) : Bool :=
  match type_expected with
  | none => true
  | some want => !ty.isEmpty && ty == want

/-- The scanning loop of `build_file` (main.rs lines 427-448) with the lines
still to be read made explicit.  The first argument is `none` in the normal
state and `some (ty, cmd)` while inside an unclosed `<!--` block whose
directive had tag `ty` and whose command so far is `cmd`; the in-place call
to `collect_html_command` of the source is unrolled into that state (the
lemma `scan_go_collect` below shows the two presentations agree). -/
def scan_go (te : Option (List Char)) :
    Option (List Char × List Char) → List (List Char) → Option (List Char)
  | none, [] => none
  | some tycmd, [] =>
    if directive_ok te tycmd.1 && !tycmd.2.isEmpty then some tycmd.2 else none
  | none, l :: ls =>
    match detect l with
    | some tytpl =>
      if is_multiline_html l then scan_go te (some tytpl) ls
      else if directive_ok te tytpl.1 && !tytpl.2.isEmpty then some tytpl.2
      else scan_go te none ls
    | none => scan_go te none ls
  | some tycmd, l :: ls =>
    let t := trimBoth l
    match findSub (strL "-->") t with
    | some i =>
      let tpl := append_command_segment tycmd.2 (t.take i)
      if directive_ok te tycmd.1 && !tpl.isEmpty then some tpl else scan_go te none ls
    | none => scan_go te (some (tycmd.1, append_command_segment tycmd.2 t)) ls

/-- The inline-directive tier: the template selected by scanning the file's
lines, if any. -/
def scan_lines (te : Option (List Char)) (lines : List (List Char)) :
    Option (List Char) :=
  scan_go te none lines

/-- `run_command` (main.rs lines 116-148): expand the `%` placeholders, then
the contextual variables, then hand the command line to the shell.  `spawn`
abstracts the process launch: `some code` when the shell ran and exited with
`code`, `none` when the shell itself could not be spawned.  The result is
`true` precisely when the shell was spawned, whatever the exit code. -/
def run_command (spawn : List Char → Option Int) (build_tpl base workdir name : List Char)
    (pm : PackageManager) (ty : Option (List Char)) : Bool :=
  let cmdline := expand_vars (expand_template build_tpl base) name workdir pm ty
  (spawn cmdline).isSome

/-- `build_file` (main.rs lines 407-463).  `contents` is the outcome of
opening and reading the target file (`none`: the file cannot be opened);
`dflts` holds the lines of the defaults file, used both by
`load_defaults_cfg` and by `read_defaults` (`none`: no config path, or the
file could be neither read nor bootstrapped); `workdir` and `pm` abstract the
canonicalized parent directory and `pick_package_manager` on it; `name` is
the final component of the file path. -/
def build_file (spawn : List Char → Option Int) (dflts : Option (List (List Char)))
    (workdir : List Char) (pm : PackageManager) (type_expected : Option (List Char))
    (name : List Char) (contents : Option (List (List Char))) : Bool :=
  match contents with
  | none => false
  | some lines =>
    match scan_lines type_expected lines with
    | some tpl => run_command spawn tpl (base_and_ext name).1 workdir name pm type_expected
    | none =>
      match dflts with
      | none => false
      | some dl =>
        match match_file_rule (parse_defaults_str dl) name type_expected with
        | some tpl => run_command spawn tpl (base_and_ext name).1 workdir name pm type_expected
        | none =>
          match read_defaults dl (base_and_ext name).2 with
          | some tpl => run_command spawn tpl (base_and_ext name).1 workdir name pm type_expected
          | none => false

/-- The template the resolution chain of `build_file` selects, separated from
the command launch: inline scan, then user file-pattern rules, then extension
defaults; `none` when the file is unreadable or nothing matches. -/
def resolve_template (dflts : Option (List (List Char))) (type_expected : Option (List Char))
    (name : List Char) (contents : Option (List (List Char))) : Option (List Char) :=
  match contents with
  | none => none
  | some lines =>
    match scan_lines type_expected lines with
    | some tpl => some tpl
    | none =>
      match dflts with
      | none => none
      | some dl =>
        match match_file_rule (parse_defaults_str dl) name type_expected with
        | some tpl => some tpl
        | none => read_defaults dl (base_and_ext name).2

/-- `check_build_file` (main.rs lines 465-472): 0 on success, 1 on failure;
the per-run sum of these is the process exit status. -/
def check_build_file (spawn : List Char → Option Int) (dflts : Option (List (List Char)))
    (workdir : List Char) (pm : PackageManager) (type_expected : Option (List Char))
    (name : List Char) (contents : Option (List (List Char))) : Nat :=
  if build_file spawn dflts workdir pm type_expected name contents then 0 else 1

/-- A command-line token after the long-option pass of `main` (main.rs lines
576-590): `-t` sets the active type for the following files, anything else is
a file argument.  Unknown `--` options abort the process before this loop and
are outside the model. -/
inductive Arg where
  | settype (t : List Char)
  | file (name : List Char)
deriving DecidableEq, Repr

/-- The argument loop of `main` (main.rs lines 573-592): thread the active
type tag and sum the per-file failure indicators; the sum is passed to
`process::exit`.  `fs` maps a file argument to its readable contents, `wd`
and `pm` to its working directory and package manager. -/
def main_loop (spawn : List Char → Option Int) (dflts : Option (List (List Char)))
    (fs : List Char → Option (List (List Char))) (wd : List Char → List Char)
    (pm : List Char → PackageManager) :
    Option (List Char) → List Arg → Nat
  | _, [] => 0
  | _, Arg.settype t :: rest => main_loop spawn dflts fs wd pm (some t) rest
  | ty, Arg.file f :: rest =>
    check_build_file spawn dflts (wd f) (pm f) ty f (fs f) +
      main_loop spawn dflts fs wd pm ty rest

/-- The file arguments of a run paired with the type tag active at each. -/
def files_with_type : Option (List Char) → List Arg →
    List (Option (List Char) × List Char)
  | _, [] => []
  | _, Arg.settype t :: rest => files_with_type (some t) rest
  | ty, Arg.file f :: rest => (ty, f) :: files_with_type ty rest

/-!
Fidelity anchors: the unit tests of main.rs and a few further concrete
runs, replayed on the embedding.
-/

example : is_comment (strL "# hello") = some (strL "hello") := by decide
example : is_comment (strL "//  hi") = some (strL "hi") := by decide
example : is_comment (strL "<!--  spaced content  -->") = some (strL "spaced content") := by
  decide
example : is_comment (strL "<!-- just the start of a comment") =
    some (strL "just the start of a comment") := by decide
example : is_comment (strL "(* test *)") = some (strL "test") := by decide
example : is_comment (strL "no comment here") = none := by decide
example : detect (strL "# @build echo hi") = some (strL "", strL "echo hi") := by decide
example : detect (strL "// @build-tex xelatex %md") =
    some (strL "tex", strL "xelatex %md") := by decide
example : detect (strL "<!-- @build make-doc") = some (strL "", strL "make-doc") := by decide
example : detect (strL "# not a build line") = none := by decide
example :
    expand_template
      (strL "env TEXINPUTS=../template: pandoc -N --pdf-engine xelatex  --template=../template/whitepaper.latex -o ../build/%pdf %md")
      (strL "doc.") =
    strL "env TEXINPUTS=../template: pandoc -N --pdf-engine xelatex  --template=../template/whitepaper.latex -o ../build/\"doc.pdf\" \"doc.md\"" := by
  decide
example : expand_template (strL "echo %a % %b") (strL "base.") =
    strL "echo \"base.a\" base. \"base.b\"" := by decide
example : base_and_ext (strL "name.md") = (strL "name.", strL "md") := by decide
example : base_and_ext (strL "name") = (strL "name", strL "") := by decide
example : project_command_for_file none (strL "book.toml") PackageManager.npm =
    some (strL "mdbook build") := by decide
example : project_command_for_file none (strL "mkdocs.yml") PackageManager.npm =
    some (strL "mkdocs build") := by decide
example : project_command_for_file none (strL "conf.py") PackageManager.npm =
    some (strL "sphinx-build -b html . _build/html") := by decide
example : project_command_for_file none (strL "Doxyfile.dev") PackageManager.npm =
    some (strL "doxygen Doxyfile.dev") := by decide
example : project_command_for_file (some (strL "down")) (strL "docker-compose.yml")
    PackageManager.npm = some (strL "docker compose down") := by decide
example : project_command_for_file (some (strL "build")) (strL "compose.yaml")
    PackageManager.npm = some (strL "docker compose build") := by decide
example : project_command_for_file (some (strL "build")) (strL "package.json")
    PackageManager.yarn = some (strL "yarn build") := by decide
example : project_command_for_file (some (strL "start")) (strL "package.json")
    PackageManager.pnpm = some (strL "pnpm start") := by decide
example : scan_lines none [strL "<!-- @build echo ok > inside -->", strL "content"] =
    some (strL "echo ok > inside") := by decide
example :
    scan_lines none
      [strL "<!-- @build echo multi", strL "line > multiline.txt -->", strL "content"] =
    some (strL "echo multi line > multiline.txt") := by decide
example : scan_lines (some (strL "down")) [strL "# @build-down echo hi"] =
    some (strL "echo hi") := by decide
example : scan_lines (some (strL "Down")) [strL "# @build-down echo hi"] = none := by decide
example : resolve_template (some [strL "md : echo default > from_defaults"]) none
    (strL "doc.md") (some [strL "no directives here"]) =
    some (strL "echo default > from_defaults") := by decide
example : parse_defaults_str [strL "file:book.toml : mdbook build", strL "# c", strL ""] =
    ⟨[], [⟨strL "book.toml", none, strL "mdbook build"⟩]⟩ := by decide
example : parse_defaults_str [strL "file:Makefile* -rel : make release"] =
    ⟨[], [⟨strL "Makefile*", some (strL "rel"), strL "make release"⟩]⟩ := by decide
example :
    match_file_rule ⟨[], [⟨strL "Makefile*", some (strL "rel"), strL "make release"⟩]⟩
      (strL "makefile.dev") (some (strL "REL")) = some (strL "make release") := by decide

/-!
Helper lemmas shared by the claim theorems.
-/

/-- `Char.ofNat` on a plain-latin code point keeps its value. -/
theorem toNat_ofNat_small {n : Nat} (h : n < 55296) : (Char.ofNat n).toNat = n := by
  have hv : n.isValidChar := Or.inl h
  rw [Char.ofNat, dif_pos hv]
  simp [Char.ofNatAux, Char.toNat, UInt32.toNat]

/-- Lowercasing an ASCII alphanumeric character lands in the lowercase-digit
class, is idempotent there, and stays alphanumeric. -/
theorem lower_of_alnum {c : Char} (h : isAlnumA c = true) :
    isLowerDigit (to_ascii_lowercase c) = true ∧
      to_ascii_lowercase (to_ascii_lowercase c) = to_ascii_lowercase c ∧
      isAlnumA (to_ascii_lowercase c) = true := by
  simp only [isAlnumA, Bool.or_eq_true, Bool.and_eq_true, decide_eq_true_eq] at h
  rcases h with (h | h) | h
  · rw [to_ascii_lowercase, if_neg (by simp; omega)]
    constructor
    · simp [isLowerDigit]; omega
    constructor
    · rw [to_ascii_lowercase, if_neg (by simp; omega)]
    · simp [isAlnumA]; omega
  · have hn : (to_ascii_lowercase c).toNat = c.toNat + 32 := by
      rw [to_ascii_lowercase, if_pos (by simp; omega)]
      exact toNat_ofNat_small (by omega)
    constructor
    · simp [isLowerDigit, hn]; omega
    constructor
    · rw [to_ascii_lowercase, if_neg (by simp [hn]; omega)]
    · simp [isAlnumA, hn]; omega
  · rw [to_ascii_lowercase, if_neg (by simp; omega)]
    constructor
    · simp [isLowerDigit]; omega
    constructor
    · rw [to_ascii_lowercase, if_neg (by simp; omega)]
    · simp [isAlnumA]; omega

/-- A character of the lowercase-digit class is alphanumeric and fixed by
lowercasing. -/
theorem lowerDigit_fixed {c : Char} (h : isLowerDigit c = true) :
    isAlnumA c = true ∧ to_ascii_lowercase c = c := by
  simp only [isLowerDigit, Bool.or_eq_true, Bool.and_eq_true, decide_eq_true_eq] at h
  constructor
  · simp [isAlnumA]; omega
  · rw [to_ascii_lowercase, if_neg (by simp; omega)]

/-- A list with `isEmpty` false is not nil. -/
theorem ne_nil_of_not_isEmpty {l : List Char} (h : l.isEmpty = false) : l ≠ [] := by
  cases l <;> simp_all

/-- Unfolding of the substring test over a cons cell. -/
theorem containsSub_cons (pat : List Char) (c : Char) (cs : List Char) :
    containsSub pat (c :: cs) = (List.isPrefixOf pat (c :: cs) || containsSub pat cs) := by
  by_cases hp : List.isPrefixOf pat (c :: cs)
  · simp [containsSub, findSub, hp]
  · simp [containsSub, findSub, hp]

/-- A successful capture means the literal `@build` occurs in the text. -/
theorem detect_content_marker :
    ∀ (cs : List Char) (p : List Char × List Char), detect_content cs = some p →
      containsSub (strL "@build") cs = true
  | [], p, h => by simp [detect_content] at h
  | c :: cs, p, h => by
    rw [containsSub_cons]
    by_cases hp : List.isPrefixOf (strL "@build") (c :: cs)
    · simp [hp]
    · rw [detect_content, if_neg hp] at h
      simp [detect_content_marker cs p h]

/-- The scanning loop only ever selects a non-empty template, whatever state
it is in. -/
theorem scan_go_some_ne_nil (te : Option (List Char)) (ls : List (List Char)) :
    ∀ (mode : Option (List Char × List Char)) (tpl : List Char),
      scan_go te mode ls = some tpl → tpl ≠ [] := by
  induction ls with
  | nil =>
    intro mode tpl h
    cases mode with
    | none => simp [scan_go] at h
    | some tycmd =>
      rw [scan_go] at h
      split at h
      · rename_i hc
        injection h with h2
        subst h2
        simp only [Bool.and_eq_true, Bool.not_eq_true'] at hc
        exact ne_nil_of_not_isEmpty hc.2
      · exact absurd h (by simp)
  | cons l ls ih =>
    intro mode tpl h
    cases mode with
    | none =>
      cases hd : detect l with
      | none =>
        simp only [scan_go, hd] at h
        exact ih none tpl h
      | some tytpl =>
        simp only [scan_go, hd] at h
        split at h
        · exact ih _ tpl h
        · split at h
          · rename_i hc
            injection h with h2
            subst h2
            simp only [Bool.and_eq_true, Bool.not_eq_true'] at hc
            exact ne_nil_of_not_isEmpty hc.2
          · exact ih none tpl h
    | some tycmd =>
      cases hf : findSub (strL "-->") (trimBoth l) with
      | some i =>
        simp only [scan_go, hf] at h
        split at h
        · rename_i hc
          injection h with h2
          subst h2
          simp only [Bool.and_eq_true, Bool.not_eq_true'] at hc
          exact ne_nil_of_not_isEmpty hc.2
        · exact ih none tpl h
      | none =>
        simp only [scan_go, hf] at h
        exact ih _ tpl h

/-- The unrolled collection state of the scanner agrees with the standalone
`collect_html_command` of the source: inside an unclosed block the loop
assembles the template, then applies the type and non-emptiness checks, then
resumes the normal scan on the unconsumed lines. -/
theorem scan_go_collect (te : Option (List Char)) (ty : List Char) :
    ∀ (ls : List (List Char)) (cmd : List Char),
      scan_go te (some (ty, cmd)) ls =
        (if directive_ok te ty && !(collect_html_command cmd ls).1.isEmpty
         then some (collect_html_command cmd ls).1
         else scan_go te none (collect_html_command cmd ls).2)
  | [], cmd => by simp [scan_go, collect_html_command]
  | l :: ls, cmd => by
    simp only [scan_go, collect_html_command]
    cases hf : findSub (strL "-->") (trimBoth l) with
    | some i => simp
    | none => simpa using scan_go_collect te ty ls (append_command_segment cmd (trimBoth l))

/-- `build_file` is the resolution chain followed by the command launch. -/
theorem build_file_eq_resolve (spawn : List Char → Option Int)
    (dflts : Option (List (List Char))) (wd : List Char) (pm : PackageManager)
    (te : Option (List Char)) (name : List Char) (contents : Option (List (List Char))) :
    build_file spawn dflts wd pm te name contents =
      match resolve_template dflts te name contents with
      | some tpl => run_command spawn tpl (base_and_ext name).1 wd name pm te
      | none => false := by
  cases contents with
  | none => rfl
  | some lines =>
    cases hs : scan_lines te lines with
    | some tpl => simp [build_file, resolve_template, hs]
    | none =>
      cases dflts with
      | none => simp [build_file, resolve_template, hs]
      | some dl =>
        cases hm : match_file_rule (parse_defaults_str dl) name te with
        | some tpl => simp [build_file, resolve_template, hs, hm]
        | none =>
          cases hr : read_defaults dl (base_and_ext name).2 with
          | some tpl => simp [build_file, resolve_template, hs, hm, hr]
          | none => simp [build_file, resolve_template, hs, hm, hr]

/-- Two spawners that agree on which commands launch yield the same
per-file outcome: the child exit codes never matter. -/
theorem build_file_spawn_congr (spawn1 spawn2 : List Char → Option Int)
    (h : ∀ c, (spawn1 c).isSome = (spawn2 c).isSome)
    (dflts : Option (List (List Char))) (wd : List Char) (pm : PackageManager)
    (te : Option (List Char)) (name : List Char) (contents : Option (List (List Char))) :
    build_file spawn1 dflts wd pm te name contents =
      build_file spawn2 dflts wd pm te name contents := by
  rw [build_file_eq_resolve, build_file_eq_resolve]
  cases resolve_template dflts te name contents with
  | none => rfl
  | some tpl => simp [run_command, h]

/-- The token pass leaves a template without `%` unchanged. -/
theorem expandTokensGo_no_percent (base : List Char) :
    ∀ t : List Char, (∀ c ∈ t, c ≠ '%') → expandTokensGo base none t = t := by
  intro t
  induction t with
  | nil => intro _; rfl
  | cons c rest ih =>
    intro h
    have hc : (c == '%') = false := by simpa using h c (by simp)
    simp only [expandTokensGo, hc, Bool.false_eq_true, if_false, List.cons.injEq]
    exact ⟨trivial, ih (fun d hd => h d (by simp [hd]))⟩

/-- The lone-`%` pass leaves a template without `%` unchanged. -/
theorem expandPercentAll_no_percent (base : List Char) :
    ∀ t : List Char, (∀ c ∈ t, c ≠ '%') → expandPercentAll base t = t := by
  intro t
  induction t with
  | nil => intro _; rfl
  | cons c rest ih =>
    intro h
    have hc : (c == '%') = false := by simpa using h c (by simp)
    simp only [expandPercentAll, hc, Bool.false_eq_true, if_false, List.singleton_append,
      List.cons.injEq]
    exact ⟨trivial, ih (fun d hd => h d (by simp [hd]))⟩

/-!
Claim theorems.
-/

/-- C10: `normalize_type` is idempotent and its image is exactly the strings
of ASCII lowercase letters and digits: every character of an output is in
that class, and every string already in that class is a fixed point. -/
theorem c10_normalize_type :
    (∀ t, normalize_type (normalize_type t) = normalize_type t) ∧
      (∀ t c, c ∈ normalize_type t → isLowerDigit c = true) ∧
      (∀ t, (∀ c ∈ t, isLowerDigit c = true) → normalize_type t = t) := by
  refine ⟨?_, ?_, ?_⟩
  · intro t
    induction t with
    | nil => rfl
    | cons a t ih =>
      by_cases ha : isAlnumA a = true
      · have h3 := lower_of_alnum ha
        simp only [normalize_type, List.filter_cons, ha, if_true, List.map_cons,
          h3.2.2, h3.2.1]
        simpa [normalize_type] using ih
      · have ha2 : isAlnumA a = false := by simpa using ha
        simp only [normalize_type, List.filter_cons, ha2, Bool.false_eq_true, if_false]
        simpa [normalize_type] using ih
  · intro t c hc
    simp only [normalize_type, List.mem_map, List.mem_filter] at hc
    obtain ⟨d, ⟨_, hd2⟩, rfl⟩ := hc
    exact (lower_of_alnum hd2).1
  · intro t
    induction t with
    | nil => intro _; rfl
    | cons a t ih =>
      intro h
      have h2 := lowerDigit_fixed (h a (by simp))
      simp only [normalize_type, List.filter_cons, h2.1, if_true, List.map_cons, h2.2,
        List.cons.injEq]
      exact ⟨trivial, ih (fun c hc => h c (by simp [hc]))⟩

/-- Witness for C10 at concrete inputs. -/
theorem c10_witness :
    normalize_type (normalize_type (strL "-Down")) = normalize_type (strL "-Down") ∧
      isLowerDigit 'd' = true ∧
      normalize_type (strL "down2") = strL "down2" :=
  ⟨c10_normalize_type.1 (strL "-Down"),
   c10_normalize_type.2.1 (strL "-Down") 'd' (by decide),
   c10_normalize_type.2.2 (strL "down2") (by decide)⟩

/-- C8: template expansion runs the quoted `%token` pass and then the bare
`%` pass; a template without `%` is left unchanged, and the two
specification examples expand exactly as stated. -/
theorem c8_expand_template :
    (∀ template base, (∀ c ∈ template, c ≠ '%') → expand_template template base = template) ∧
      expand_template (strL "%pdf %md") (strL "doc.") = strL "\"doc.pdf\" \"doc.md\"" ∧
      expand_template (strL "a % b") (strL "x.") = strL "a x. b" := by
  refine ⟨?_, by decide, by decide⟩
  intro template base h
  rw [expand_template, expandTokensGo_no_percent base template h,
    expandPercentAll_no_percent base template h]

/-- Witness for C8 at a concrete placeholder-free template. -/
theorem c8_witness : expand_template (strL "pandoc file") (strL "doc.") = strL "pandoc file" :=
  c8_expand_template.1 (strL "pandoc file") (strL "doc.") (by decide)

/-- C6: an inline directive with an empty command template is never the
resolution: the scan only ever selects a non-empty template, and when the
scan selects nothing the chain moves on to the file-rule and
extension-default tiers. -/
theorem c6_empty_template_never_selected :
    (∀ te lines tpl, scan_lines te lines = some tpl → tpl ≠ []) ∧
      (∀ dflts te name lines, scan_lines te lines = none →
        resolve_template dflts te name (some lines) =
          (match dflts with
           | none => none
           | some dl =>
             match match_file_rule (parse_defaults_str dl) name te with
             | some tpl => some tpl
             | none => read_defaults dl (base_and_ext name).2)) := by
  constructor
  · exact fun te lines tpl h => scan_go_some_ne_nil te lines none tpl h
  · intro dflts te name lines h
    simp [resolve_template, h]

/-- Witness for C6 at concrete inputs. -/
theorem c6_witness :
    strL "echo hi" ≠ [] ∧
      resolve_template none none (strL "a.md") (some [strL "x"]) = none :=
  ⟨c6_empty_template_never_selected.1 none [strL "# @build echo hi"] (strL "echo hi")
      (by decide),
   c6_empty_template_never_selected.2 none none (strL "a.md") [strL "x"] (by decide)⟩

/-- C2 fails on the code: an unreadable file makes `build_file` return
failure immediately, even though an extension default matches `md`, so the
later tiers are not attempted and resolution cannot succeed. -/
theorem c2_counterexample :
    build_file (fun _ => some 0) (some [strL "md : pandoc -o %pdf %md"]) (strL "/w")
        PackageManager.npm none (strL "doc.md") none = false ∧
      resolve_template (some [strL "md : pandoc -o %pdf %md"]) none (strL "doc.md") none =
        none ∧
      read_defaults [strL "md : pandoc -o %pdf %md"] (strL "md") =
        some (strL "pandoc -o %pdf %md") :=
  ⟨rfl, rfl, by decide⟩

/-- C2 amended: when the target file cannot be opened the whole resolution
fails for that file at once; no later tier is attempted, even when the
extension-defaults tier would match the file name. -/
theorem c2_amended (spawn : List Char → Option Int) (dl : List (List Char))
    (wd : List Char) (pm : PackageManager) (te : Option (List Char)) (name cmd : List Char)
    (_hr : read_defaults dl (base_and_ext name).2 = some cmd) :
    build_file spawn (some dl) wd pm te name none = false ∧
      resolve_template (some dl) te name none = none :=
  ⟨rfl, rfl⟩

/-- Witness for the amended C2 at concrete inputs. -/
theorem c2_witness :
    build_file (fun _ => some 0) (some [strL "md : x"]) (strL "/w") PackageManager.npm none
        (strL "doc.md") none = false ∧
      resolve_template (some [strL "md : x"]) none (strL "doc.md") none = none :=
  c2_amended (fun _ => some 0) [strL "md : x"] (strL "/w") PackageManager.npm none
    (strL "doc.md") (strL "x") (by decide)

/-- C3 fails on the code: the inline tier compares the directive tag to the
requested tag verbatim, with no normalization, so the requests `Down` and
`down` select different directives even though they normalize equally. -/
theorem c3_counterexample :
    scan_lines (some (strL "Down")) [strL "# @build-down echo hi"] = none ∧
      normalize_type (strL "Down") = normalize_type (strL "down") ∧
      scan_lines (some (strL "down")) [strL "# @build-down echo hi"] =
        some (strL "echo hi") := by
  decide

/-- C3 amended: with a requested tag set, an inline directive matches the
request if and only if its tag is non-empty and equal to the requested tag
as written (byte-for-byte, no normalization), and its template is
non-empty. -/
theorem c3_amended (want l ty cmd : List Char)
    (hd : detect l = some (ty, cmd)) (hm : is_multiline_html l = false) :
    scan_lines (some want) [l] =
      if ty ≠ [] ∧ ty = want ∧ cmd ≠ [] then some cmd else none := by
  simp only [scan_lines, scan_go, hd, hm, Bool.false_eq_true, if_false]
  by_cases h1 : ty = []
  · subst h1
    simp [directive_ok, scan_go]
  · by_cases h2 : ty = want
    · subst h2
      by_cases h3 : cmd = []
      · subst h3
        simp [directive_ok, scan_go, h1]
      · simp [directive_ok, scan_go, h1, h3]
    · simp [directive_ok, scan_go, h1, h2]

/-- Witness for the amended C3 at concrete inputs. -/
theorem c3_witness :
    scan_lines (some (strL "down")) [strL "# @build-down echo hi"] =
      if strL "down" ≠ [] ∧ strL "down" = strL "down" ∧ strL "echo hi" ≠ []
      then some (strL "echo hi") else none :=
  c3_amended (strL "down") (strL "# @build-down echo hi") (strL "down") (strL "echo hi")
    (by decide) (by decide)

/-- C5 fails on the code: the regex `@build-?([A-Za-z0-9]*)\s+(.*)$` makes
the hyphen and the tag independently optional, so a comment that carries no
hyphen at all can still capture a non-empty tag (here `foo`), where the claim
requires the empty tag whenever no `-tag` suffix is present. -/
theorem c5_counterexample :
    detect (strL "# @buildfoo echo hi") = some (strL "foo", strL "echo hi") ∧
      containsSub (strL "-") (strL "# @buildfoo echo hi") = false := by
  decide

/-- C5 amended: `detect` returns none when the comment text lacks the
`@build` marker; after `@build` the hyphen and the alphanumeric tag are each
independently optional (greedy), then mandatory whitespace, then the rest of
the line as the command — so the hyphenated and unhyphenated forms capture
the same tag, and the tag is empty exactly when no alphanumeric character
follows `@build` (or the hyphen). -/
theorem c5_amended :
    (∀ l p, detect l = some p →
       ∃ content, is_comment l = some content ∧ containsSub (strL "@build") content = true) ∧
      (∀ tag c0 rest, (∀ c ∈ tag, isAlnumA c = true) → isWs c0 = false →
        tryBuild ('-' :: (tag ++ ' ' :: c0 :: rest)) = some (tag, c0 :: rest) ∧
          tryBuild (tag ++ ' ' :: c0 :: rest) = some (tag, c0 :: rest)) ∧
      detect (strL "# @build echo hi") = some (strL "", strL "echo hi") ∧
      detect (strL "// @build-tex xelatex %md") = some (strL "tex", strL "xelatex %md") ∧
      detect (strL "# no directive here") = none := by
  refine ⟨?_, ?_, by decide, by decide, by decide⟩
  · intro l p h
    rw [detect] at h
    cases hc : is_comment l with
    | none =>
      rw [hc] at h
      simp at h
    | some content =>
      rw [hc] at h
      simp only [Option.some_bind] at h
      exact ⟨content, rfl, detect_content_marker content p h⟩
  · intro tag c0 rest htag hc0
    have htake : (tag ++ ' ' :: c0 :: rest).takeWhile isAlnumA = tag := by
      rw [List.takeWhile_append_of_pos htag, List.takeWhile_cons_of_neg (by decide)]
      simp
    have hdrop : (tag ++ ' ' :: c0 :: rest).dropWhile isAlnumA = ' ' :: c0 :: rest := by
      rw [List.dropWhile_append_of_pos htag, List.dropWhile_cons_of_neg (by decide)]
    have hdropWs : (c0 :: rest).dropWhile isWs = c0 :: rest :=
      List.dropWhile_cons_of_neg (by simp [hc0])
    constructor
    · have hp : List.isPrefixOf (strL "-") ('-' :: (tag ++ ' ' :: c0 :: rest)) = true := by
        simp [strL, List.isPrefixOf]
      simp [tryBuild, hp, htake, hdrop, hdropWs, isWs]
    · have hp2 : List.isPrefixOf (strL "-") (tag ++ ' ' :: c0 :: rest) = false := by
        cases tag with
        | nil => simp [strL, List.isPrefixOf]
        | cons t0 ts =>
          have ht0 := htag t0 (by simp)
          have hne : ('-' == t0) = false := by
            cases he : ('-' == t0) with
            | false => rfl
            | true =>
              have ht : '-' = t0 := by simpa using he
              rw [← ht] at ht0
              exact absurd ht0 (by decide)
          simp [strL, List.isPrefixOf, hne]
      simp [tryBuild, hp2, htake, hdrop, hdropWs, isWs]

/-- Witness for the amended C5 at concrete inputs. -/
theorem c5_witness :
    (∃ content, is_comment (strL "# @build echo hi") = some content ∧
        containsSub (strL "@build") content = true) ∧
      (tryBuild ('-' :: (strL "tex" ++ ' ' :: 'x' :: strL "elatex")) =
          some (strL "tex", 'x' :: strL "elatex") ∧
        tryBuild (strL "tex" ++ ' ' :: 'x' :: strL "elatex") =
          some (strL "tex", 'x' :: strL "elatex")) :=
  ⟨c5_amended.1 (strL "# @build echo hi") (strL "", strL "echo hi") (by decide),
   c5_amended.2.1 (strL "tex") 'x' (strL "elatex") (by decide) (by decide)⟩

/-- C4 fails on the code: the extension tier re-reads the defaults file with
`read_defaults`, which returns the first matching entry, not the last; the
`ext_map` built by `parse_defaults_str` (which does keep unique keys,
last-write-wins) is never consulted for the extension lookup. -/
theorem c4_counterexample :
    read_defaults [strL "md : first", strL "md : second"] (strL "md") =
      some (strL "first") ∧
      resolve_template (some [strL "md : first", strL "md : second"]) none (strL "doc.md")
        (some [strL "text"]) = some (strL "first") ∧
      strL "first" ≠ strL "second" := by
  decide

/-- C4 amended: with several (case-insensitively equal) entries for one
extension key, the command used by the extension tier is the first such entry
in file order, and the entries after it cannot change the result. -/
theorem c4_amended (l : List Char) (post : List (List Char)) (ext key cmd : List Char)
    (hl : parse_ext_line l = some (key, cmd)) (hk : lowerStr key = lowerStr ext) :
    ∀ pre : List (List Char),
      pre.all (fun p =>
        match parse_ext_line p with
        | some kv => !(lowerStr kv.1 == lowerStr ext)
        | none => true) = true →
      read_defaults (pre ++ l :: post) ext = some cmd
  | [], _ => by
    simp only [List.nil_append, read_defaults, hl]
    rw [if_pos (by simp [hk])]
  | p :: ps, hpre => by
    simp only [List.all_cons, Bool.and_eq_true] at hpre
    cases hp : parse_ext_line p with
    | none =>
      simp only [List.cons_append, read_defaults, hp]
      exact c4_amended l post ext key cmd hl hk ps hpre.2
    | some kv =>
      have hne : (lowerStr kv.1 == lowerStr ext) = false := by
        have h1 := hpre.1
        rw [hp] at h1
        simpa using h1
      simp only [List.cons_append, read_defaults, hp, hne, Bool.false_eq_true, if_false]
      exact c4_amended l post ext key cmd hl hk ps hpre.2

/-- Witness for the amended C4 at concrete inputs. -/
theorem c4_witness :
    read_defaults
      ([strL "# note", strL "TXT : x"] ++ (strL "md : first") :: [strL "md : second"])
      (strL "md") = some (strL "first") :=
  c4_amended (strL "md : first") [strL "md : second"] (strL "md") (strL "md") (strL "first")
    (by decide) (by decide) [strL "# note", strL "TXT : x"] (by decide)

/-- C1 fails on the code: the fixed project-convention table
(`project_command_for_file`) is compiled only under the test configuration
and is never consulted by `build_file`; a file named `book.toml` with no
inline directive and empty user defaults resolves to nothing, although the
table would synthesize `mdbook build` for it. -/
theorem c1_counterexample :
    resolve_template (some []) none (strL "book.toml") (some [strL "x"]) = none ∧
      build_file (fun _ => some 0) (some []) (strL "/w") PackageManager.npm none
        (strL "book.toml") (some [strL "x"]) = false ∧
      project_command_for_file none (strL "book.toml") PackageManager.npm =
        some (strL "mdbook build") := by
  decide

/-- C1 amended: the resolution chain of `build_file` has no
project-convention tier: a non-empty matching inline directive wins, and
otherwise resolution passes directly to the user file-pattern rules and then
to the extension defaults. -/
theorem c1_amended (dflts : Option (List (List Char))) (te : Option (List Char))
    (name : List Char) (lines : List (List Char)) :
    (∀ tpl, scan_lines te lines = some tpl →
       resolve_template dflts te name (some lines) = some tpl) ∧
      (scan_lines te lines = none →
        resolve_template dflts te name (some lines) =
          (match dflts with
           | none => none
           | some dl =>
             match match_file_rule (parse_defaults_str dl) name te with
             | some tpl => some tpl
             | none => read_defaults dl (base_and_ext name).2)) := by
  constructor
  · intro tpl h
    simp [resolve_template, h]
  · intro h
    simp [resolve_template, h]

/-- Witness for the amended C1 at concrete inputs. -/
theorem c1_witness :
    resolve_template (some []) none (strL "doc.md") (some [strL "# @build make"]) =
        some (strL "make") ∧
      resolve_template (some []) none (strL "doc.md") (some [strL "text"]) = none :=
  ⟨(c1_amended (some []) none (strL "doc.md") [strL "# @build make"]).1 (strL "make")
      (by decide),
   (c1_amended (some []) none (strL "doc.md") [strL "text"]).2 (by decide)⟩

/-- C7: the multi-line `<!--` collection appends the trimmed text of each
consumed line until a line contains `-->`; on that line only the text before
the first marker is appended, the remainder of the line is discarded, and the
following lines are returned unconsumed, yielding one assembled template. -/
theorem c7_collect_html (l : List Char) (post : List (List Char)) (i : Nat)
    (hl : findSub (strL "-->") (trimBoth l) = some i) :
    ∀ (pre : List (List Char)) (cmd : List Char),
      pre.all (fun p => !containsSub (strL "-->") (trimBoth p)) = true →
      collect_html_command cmd (pre ++ l :: post) =
        (append_command_segment
          (pre.foldl (fun acc p => append_command_segment acc (trimBoth p)) cmd)
          ((trimBoth l).take i), post)
  | [], cmd, _ => by
    simp only [List.nil_append, collect_html_command, hl, List.foldl_nil]
  | p :: ps, cmd, hpre => by
    simp only [List.all_cons, Bool.and_eq_true] at hpre
    have hnone : findSub (strL "-->") (trimBoth p) = none := by
      have h1 := hpre.1
      cases hf : findSub (strL "-->") (trimBoth p) with
      | none => rfl
      | some j =>
        simp only [containsSub, hf] at h1
        simp at h1
    simp only [List.cons_append, collect_html_command, hnone, List.foldl_cons]
    exact c7_collect_html l post i hl ps (append_command_segment cmd (trimBoth p)) hpre.2

/-- Witness for C7 at concrete inputs. -/
theorem c7_witness :
    collect_html_command (strL "echo")
      ([strL "  multi  "] ++ (strL "line > out.txt --> tail") :: [strL "rest"]) =
      (append_command_segment
        ([strL "  multi  "].foldl (fun acc p => append_command_segment acc (trimBoth p))
          (strL "echo"))
        ((trimBoth (strL "line > out.txt --> tail")).take 15), [strL "rest"]) :=
  c7_collect_html (strL "line > out.txt --> tail") [strL "rest"] 15 (by decide)
    [strL "  multi  "] (strL "echo") (by decide)

/-- C9 fails on the code: only the inline tier insists on a non-empty
template.  Here the extension tier produces the empty template (defaults
line `md :`), the shell is spawned on it successfully, and the run exits 0 —
while under the claim the file counts as failed, because no tier produced a
NON-empty template, which would give exit status 1. -/
theorem c9_counterexample :
    main_loop (fun _ => some 0) (some [strL "md :"]) (fun _ => some [strL "hello"])
        (fun _ => strL "/w") (fun _ => PackageManager.npm) none
        [Arg.file (strL "doc.md")] = 0 ∧
      resolve_template (some [strL "md :"]) none (strL "doc.md") (some [strL "hello"]) =
        some [] := by
  exact ⟨rfl, by decide⟩

/-- C9 amended: the exit status is the number of file arguments on which
`build_file` failed; a file fails exactly when the chain selects no template
at all (an empty template from the rule or extension tier still counts as a
resolution and is executed) or the shell could not be spawned; the child
exit codes never influence the count. -/
theorem c9_exit_status :
    (∀ spawn dflts fs wd pm ty args,
       main_loop spawn dflts fs wd pm ty args =
         ((files_with_type ty args).filter (fun p =>
             !build_file spawn dflts (wd p.2) (pm p.2) p.1 p.2 (fs p.2))).length) ∧
      (∀ (spawn : List Char → Option Int) dflts wd pm te name contents,
        build_file spawn dflts wd pm te name contents = true ↔
          ∃ tpl, resolve_template dflts te name contents = some tpl ∧
            (spawn (expand_vars (expand_template tpl (base_and_ext name).1) name wd pm
              te)).isSome = true) ∧
      (∀ spawn1 spawn2 dflts fs wd pm ty args,
        (∀ c, (spawn1 c).isSome = (spawn2 c).isSome) →
        main_loop spawn1 dflts fs wd pm ty args =
          main_loop spawn2 dflts fs wd pm ty args) := by
  refine ⟨?_, ?_, ?_⟩
  · intro spawn dflts fs wd pm ty args
    induction args generalizing ty with
    | nil => rfl
    | cons a rest ih =>
      cases a with
      | settype t => simp [main_loop, files_with_type, ih]
      | file f =>
        simp only [main_loop, files_with_type, check_build_file, List.filter_cons]
        cases hb : build_file spawn dflts (wd f) (pm f) ty f (fs f) with
        | true => simpa [hb] using ih ty
        | false =>
          simp [hb, ih ty]
          omega
  · intro spawn dflts wd pm te name contents
    rw [build_file_eq_resolve]
    cases hr : resolve_template dflts te name contents with
    | none => simp
    | some tpl => simp [run_command]
  · intro spawn1 spawn2 dflts fs wd pm ty args h
    induction args generalizing ty with
    | nil => rfl
    | cons a rest ih =>
      cases a with
      | settype t => simp [main_loop, ih]
      | file f =>
        simp only [main_loop, check_build_file,
          build_file_spawn_congr spawn1 spawn2 h dflts (wd f) (pm f) ty f (fs f), ih ty]

/-- Witness for the amended C9 at concrete inputs. -/
theorem c9_witness :
    main_loop (fun _ => some 0) none (fun _ => none) (fun _ => strL "/w")
        (fun _ => PackageManager.npm) none [Arg.file (strL "a")] = 1 ∧
      (build_file (fun _ => some 0) none (strL "/w") PackageManager.npm none (strL "a.md")
          (some [strL "# @build go"]) = true ↔
        ∃ tpl, resolve_template none none (strL "a.md") (some [strL "# @build go"]) =
            some tpl ∧ (some (0 : Int)).isSome = true) ∧
      main_loop (fun _ => some 0) none (fun _ => none) (fun _ => strL "/w")
          (fun _ => PackageManager.npm) none [Arg.file (strL "a")] =
        main_loop (fun _ => some 7) none (fun _ => none) (fun _ => strL "/w")
          (fun _ => PackageManager.npm) none [Arg.file (strL "a")] :=
  ⟨c9_exit_status.1 (fun _ => some 0) none (fun _ => none) (fun _ => strL "/w")
      (fun _ => PackageManager.npm) none [Arg.file (strL "a")],
   c9_exit_status.2.1 (fun _ => some 0) none (strL "/w") PackageManager.npm none
      (strL "a.md") (some [strL "# @build go"]),
   c9_exit_status.2.2 (fun _ => some 0) (fun _ => some 7) none (fun _ => none)
      (fun _ => strL "/w") (fun _ => PackageManager.npm) none [Arg.file (strL "a")]
      (fun _ => rfl)⟩

end Ruild
